import Mathlib

/-
Verification of the batch-import orchestration core of the
tvbingefriend-episode-service repository.

The definitions below are a shallow embedding of the Python source:
  * services/episode_service.py : EpisodeService._process_shows_batch,
    the queue-message handler handle_show_episodes and its inner
    upsert_with_retry closure;
  * repos/episode_repo.py       : EpisodeRepository.upsert_episode;
  * services/monitoring_service.py and services/retry_service.py are not
    part of the source tree; where their behavior is needed it is modelled
    from the specification (and the unit tests that exercise them), and
    each such definition is marked "Modelled from the spec:".

External effects (queue enqueues, database statement execution) are made
explicit: fallible calls take a Boolean/Option oracle saying whether the
call succeeds, and each function returns the list of messages it enqueued,
the tracking statuses it wrote, and whether an exception propagated.
-/

namespace EpisodeSvc

/-- Status values of the import tracking record (monitoring ImportStatus). -/
inductive ImportStatus where
  | inProgress
  | completed
  | failed
deriving DecidableEq, Repr

/-- A row of the show-ids catalog table as read by `_process_shows_batch`:
the only field the code reads is `RowKey` (`show_entity.get("RowKey")`).
`rowKey = none` models an entity whose `RowKey` is absent; the `int(...)`
conversion of the stored string is modelled by keeping the parsed value. -/
structure Entity where
  rowKey : Option Int
deriving DecidableEq, Repr

/-- A unit work message `{"show_id": ..., "import_id": ...}` as built by
`_process_shows_batch` (import id present) or `get_updates` (absent). -/
structure UnitMsg where
  showId : Int
  importId : Option String
deriving DecidableEq, Repr

/-- A continuation message `{"action": "process_batch", "import_id": ...,
"batch_number": ..., "batch_size": ...}` as built by `_process_shows_batch`. -/
structure ContMsg where
  importId : String
  batchNumber : Nat
  batchSize : Nat
deriving DecidableEq, Repr

/-- The skip-then-collect loop of `_process_shows_batch` (lines 100-118):
entities are skipped while `current_count < skip_count`; afterwards they are
appended to the batch while it holds fewer than `batch_size` entries, and the
loop breaks on the first entity seen once the batch is full. -/
def collectLoop (skipCount batchSize : Nat) :
    List Entity → Nat → List Entity → List Entity
  | [], _, batch => batch
  | e :: rest, currentCount, batch =>
    if currentCount < skipCount then
      collectLoop skipCount batchSize rest (currentCount + 1) batch
    else if batch.length < batchSize then
      collectLoop skipCount batchSize rest (currentCount + 1) (batch ++ [e])
    else
      batch

/-- The batch of entities collected by `_process_shows_batch` for a given
skip count and batch size, starting from fresh counters. -/
def collectBatch (entities : List Entity) (skipCount batchSize : Nat) :
    List Entity :=
  collectLoop skipCount batchSize entities 0 []

/-- Result of the per-entity enqueue loop of `_process_shows_batch`:
the unit messages actually enqueued, the final `queued_count`, the number of
enqueue calls issued, and whether an enqueue raised (aborting the loop). -/
structure QueueResult where
  msgs : List UnitMsg
  queuedCount : Nat
  callIdx : Nat
  raised : Bool
deriving DecidableEq, Repr

/-- The enqueue loop of `_process_shows_batch` (lines 128-145): an entity
without a `RowKey` is skipped with a warning; otherwise a unit message is
enqueued via `upload_queue_message`. `enqOk i` says whether the i-th enqueue
call of this invocation succeeds; the source has no try/except around the
call, so a failing enqueue propagates and ends the loop. -/
def queueShowsLoop (importId : String) (enqOk : Nat → Bool) :
    List Entity → Nat → Nat → QueueResult
  | [], callIdx, queued => ⟨[], queued, callIdx, false⟩
  | e :: rest, callIdx, queued =>
    match e.rowKey with
    | none => queueShowsLoop importId enqOk rest callIdx queued
    | some sid =>
      if enqOk callIdx then
        let r := queueShowsLoop importId enqOk rest (callIdx + 1) (queued + 1)
        ⟨⟨sid, some importId⟩ :: r.msgs, r.queuedCount, r.callIdx, r.raised⟩
      else
        ⟨[], queued, callIdx, true⟩

/-- Observable effects of one `_process_shows_batch` invocation. -/
structure BatchEffects where
  /-- unit messages enqueued onto the episodes queue -/
  unitMsgs : List UnitMsg
  /-- continuation messages enqueued onto the episodes queue -/
  contMsgs : List ContMsg
  /-- statuses passed to `complete_show_episodes_import(import_id, ...)` -/
  completeCalls : List ImportStatus
  /-- the value of `has_more`, if the code reached its computation -/
  hasMore : Option Bool
  /-- whether an exception propagated out of the call -/
  raised : Bool
deriving DecidableEq, Repr

/-- Embedding of `EpisodeService._process_shows_batch(import_id, batch_number,
batch_size)` over a catalog `cat` (the entities returned for the filter
`PartitionKey eq 'show'`, in iteration order). It skips
`batch_number * batch_size` entities, collects up to `batch_size`, and:
  * empty batch: marks the import COMPLETED and returns;
  * otherwise enqueues one unit message per entity that has a `RowKey`,
    computes `has_more = (len(batch_entities) == batch_size)` and, if so,
    enqueues one continuation for `batch_number + 1`.
An exception from any enqueue is caught by the surrounding `except`, which
marks the import FAILED and re-raises. -/
def processShowsBatch (cat : List Entity) (importId : String)
    (batchNumber batchSize : Nat) (enqOk : Nat → Bool) : BatchEffects :=
  let batchEntities := collectBatch cat (batchNumber * batchSize) batchSize
  if batchEntities.isEmpty then
    ⟨[], [], [ImportStatus.completed], none, false⟩
  else
    let r := queueShowsLoop importId enqOk batchEntities 0 0
    if r.raised then
      ⟨r.msgs, [], [ImportStatus.failed], none, true⟩
    else
      let hasMore := batchEntities.length = batchSize
      if hasMore then
        if enqOk r.callIdx then
          ⟨r.msgs, [⟨importId, batchNumber + 1, batchSize⟩], [], some true, false⟩
        else
          ⟨r.msgs, [], [ImportStatus.failed], some true, true⟩
      else
        ⟨r.msgs, [], [], some false, false⟩

/-- Oracle for runs in which every enqueue succeeds. -/
def allOk : Nat → Bool := fun _ => true

/-- The unit messages produced from a batch when no enqueue fails: one per
entity carrying a `RowKey`, in order. -/
def unitMsgsOf (importId : String) (batch : List Entity) : List UnitMsg :=
  batch.filterMap (fun e => e.rowKey.map (fun sid => ⟨sid, some importId⟩))

/-- Accumulated observable effects of running one batch call and then letting
the queue processor consume every continuation message it produced
(`handle_show_episodes` dispatches `action == "process_batch"` back into
`_process_shows_batch`). -/
structure RunTrace where
  unitMsgs : List UnitMsg
  contMsgs : List ContMsg
  completeCalls : List ImportStatus
  /-- the `has_more` value computed by the last executed batch call
  (`none` when that call returned before computing it) -/
  lastHasMore : Option Bool
  raised : Bool
  /-- true when the run stopped because the fuel bound was reached,
  not because the code stopped producing continuations -/
  fuelOut : Bool
deriving DecidableEq, Repr

/-- Effects of a single batch call viewed as a (finished) run. -/
def traceOfBatch (r : BatchEffects) : RunTrace :=
  ⟨r.unitMsgs, r.contMsgs, r.completeCalls, r.hasMore, r.raised, false⟩

/-- Prepend one batch call's effects to the trace of the run it continued
into. -/
def mergeTrace (r : BatchEffects) (t : RunTrace) : RunTrace :=
  ⟨r.unitMsgs ++ t.unitMsgs, r.contMsgs ++ t.contMsgs,
    r.completeCalls ++ t.completeCalls, t.lastHasMore,
    r.raised || t.raised, t.fuelOut⟩

/-- Run `_process_shows_batch` at `batchNumber` and keep consuming the
continuation messages it enqueues, reading the next batch number and batch
size out of each continuation message exactly as `handle_show_episodes`
does. `fuel` bounds the number of batch calls; `enq b` is the enqueue
oracle used by the call at batch number `b`. -/
def runImportAux (cat : List Entity) (importId : String)
    (enq : Nat → Nat → Bool) : Nat → Nat → Nat → RunTrace
  | 0, _, _ => ⟨[], [], [], none, false, true⟩
  | fuel + 1, batchNumber, batchSize =>
    let r := processShowsBatch cat importId batchNumber batchSize (enq batchNumber)
    match r.contMsgs with
    | [] => traceOfBatch r
    | c :: _ => mergeTrace r (runImportAux cat importId enq fuel c.batchNumber c.batchSize)

/-- Full enumeration run from batch number 0, as started by
`start_get_all_shows_episodes` (which invokes `_process_shows_batch` with
`batch_number = 0`). -/
def runImport (cat : List Entity) (importId : String) (batchSize : Nat)
    (enq : Nat → Nat → Bool) (fuel : Nat) : RunTrace :=
  runImportAux cat importId enq fuel 0 batchSize

/-- Oracle family for runs in which every enqueue of every batch succeeds. -/
def allOk2 : Nat → Nat → Bool := fun _ _ => true

/-- A field value of an episode record (string/int/JSON payloads are all
opaque data for the upsert; only equality matters here). A JSON `null`
stored in a present key is modelled as a present value. -/
inductive Val where
  | vInt (n : Int)
  | vStr (s : String)
deriving DecidableEq, Repr

/-- An episode dict as returned by the TVMaze API, restricted to what the
code reads: `id`, the embedded `show.id` reference, the `_links.show.href`
URL, and the values of the keys that match columns of the `Episode` model
(`inspect(Episode)` yields: id, show_id, url, name, season, number, type,
airdate, airtime, airstamp, runtime, rating, image, summary, _links).
`none` in a column field means the key is absent from the dict, so the
`key in episode_columns` filter drops it from `insert_values`. The dict's
`show_id` key is never set by the API and is modelled as absent; `type` and
`_links` columns are the fields `etype` and `links`. -/
structure EpisodeRec where
  id : Option Int
  showRef : Option Int
  showHref : Option String
  url : Option Val
  name : Option Val
  season : Option Val
  number : Option Val
  etype : Option Val
  airdate : Option Val
  airtime : Option Val
  airstamp : Option Val
  runtime : Option Val
  rating : Option Val
  image : Option Val
  summary : Option Val
  links : Option Val
deriving DecidableEq, Repr

/-- A persisted row of the `episodes` table: the primary key is stored as the
database key, `show_id` is NOT NULL, every other column may be NULL (or was
never touched by an update), hence `Option Val`. -/
structure EpisodeRow where
  show_id : Int
  url : Option Val
  name : Option Val
  season : Option Val
  number : Option Val
  etype : Option Val
  airdate : Option Val
  airtime : Option Val
  airstamp : Option Val
  runtime : Option Val
  rating : Option Val
  image : Option Val
  summary : Option Val
  links : Option Val
deriving DecidableEq, Repr

/-- The relational sink: episode rows keyed by primary key `id`. -/
abbrev Db : Type := List (Int × EpisodeRow)

/-- Point lookup by primary key. -/
def dbGet : Db → Int → Option EpisodeRow
  | [], _ => none
  | (k, r) :: rest, key => if k = key then some r else dbGet rest key

/-- Store a row under a primary key, replacing an existing row. -/
def dbSet : Db → Int → EpisodeRow → Db
  | [], key, row => [(key, row)]
  | (k, r) :: rest, key, row =>
    if k = key then (key, row) :: rest else (k, r) :: dbSet rest key row

/-- The row produced by the INSERT arm of the statement: `insert_values` is
the episode dict filtered to model columns, with `id` and `show_id` forced;
columns absent from the dict become NULL. -/
def insertRow (ep : EpisodeRec) (showId : Int) : EpisodeRow :=
  ⟨showId, ep.url, ep.name, ep.season, ep.number, ep.etype, ep.airdate,
    ep.airtime, ep.airstamp, ep.runtime, ep.rating, ep.image, ep.summary,
    ep.links⟩

/-- Column update semantics of `ON DUPLICATE KEY UPDATE`: a column listed in
`update_values` (i.e. present in the dict) takes the new value, any other
column keeps the old one. -/
def updCol (newVal oldVal : Option Val) : Option Val :=
  match newVal with
  | some v => some v
  | none => oldVal

/-- The row produced by the UPDATE arm: `update_values` is `insert_values`
without `id`, so `show_id` and every dict-present column are overwritten. -/
def updateRow (ep : EpisodeRec) (showId : Int) (old : EpisodeRow) : EpisodeRow :=
  ⟨showId, updCol ep.url old.url, updCol ep.name old.name,
    updCol ep.season old.season, updCol ep.number old.number,
    updCol ep.etype old.etype, updCol ep.airdate old.airdate,
    updCol ep.airtime old.airtime, updCol ep.airstamp old.airstamp,
    updCol ep.runtime old.runtime, updCol ep.rating old.rating,
    updCol ep.image old.image, updCol ep.summary old.summary,
    updCol ep.links old.links⟩

/-- Effect on the sink of executing the
`INSERT ... ON DUPLICATE KEY UPDATE` statement built by `upsert_episode`:
insert when the key is new, update when it already exists. -/
def applyUpsertStmt (ep : EpisodeRec) (showId idVal : Int) (db : Db) : Db :=
  match dbGet db idVal with
  | none => dbSet db idVal (insertRow ep showId)
  | some old => dbSet db idVal (updateRow ep showId old)

/-- The two classes of exception distinguished by `upsert_episode`'s
`except` clauses: `SQLAlchemyError` and any other `Exception`. -/
inductive DbErr where
  | sqlalchemy
  | other
deriving DecidableEq, Repr

/-- The `try` block of `upsert_episode` (`db.execute(stmt)` / `db.flush()`):
`execFail` injects a raised exception, in which case the statement has no
effect on the sink. -/
def upsertEpisodeTry (ep : EpisodeRec) (showId idVal : Int) (db : Db)
    (execFail : Option DbErr) : Except DbErr Db :=
  match execFail with
  | some e => Except.error e
  | none => Except.ok (applyUpsertStmt ep showId idVal db)

/-- Embedding of `EpisodeRepository.upsert_episode(episode, show_id, db)`.
The return type `Except DbErr Db` is what escapes the Python function: a
missing or falsy (`0`) episode id logs an error and returns without writing,
and both `except` clauses catch, log, and fall off the end of the function,
so every branch produces `Except.ok`. -/
def upsert_episode (ep : EpisodeRec) (showId : Int) (db : Db)
    (execFail : Option DbErr) : Except DbErr Db :=
  match ep.id with
  | none => Except.ok db
  | some idVal =>
    if idVal = 0 then
      Except.ok db
    else
      match upsertEpisodeTry ep showId idVal db execFail with
      | Except.ok db' => Except.ok db'
      | Except.error DbErr.sqlalchemy => Except.ok db
      | Except.error DbErr.other => Except.ok db

/-- The sink state after a call of `upsert_episode` (the call never raises,
so this is total; the `error` arm is unreachable). -/
def upsertEpisodeRun (ep : EpisodeRec) (showId : Int) (db : Db)
    (execFail : Option DbErr) : Db :=
  match upsert_episode ep showId db execFail with
  | Except.ok db' => db'
  | Except.error _ => db

/-- Python truthiness of an optional integer (`if not episode_show_id` is
taken for both `None` and `0`). -/
def pyTruthy : Option Int → Bool
  | none => false
  | some n => decide (n ≠ 0)

/-- Python truthiness of an optional string (`if import_id:` is false for
`None` and for the empty string). -/
def pyTruthyStr : Option String → Bool
  | none => false
  | some s => decide (s ≠ "")

/-- Worker loop of the bounded retry: try the operation at the given attempt
number; on failure, retry while retries remain, else surface the last error.
Returns the result together with the number of the attempt that produced
it. -/
def withRetryAux (op : Nat → Except DbErr Db) :
    Nat → Nat → Except DbErr Db × Nat
  | remaining, attempt =>
    match op attempt with
    | Except.ok a => (Except.ok a, attempt)
    | Except.error e =>
      match remaining with
      | 0 => (Except.error e, attempt)
      | r + 1 => withRetryAux op r (attempt + 1)

/-- Modelled from the spec: the Retry Coordinator's bounded-retry wrapper
(`retry_service.with_retry`, whose source is not under src/). Per section 4.6
it invokes the operation, on exception logs an attempt record and retries
until `max_attempts` total attempts are spent, then re-raises the last
exception. -/
def withRetry (maxAttempts : Nat) (op : Nat → Except DbErr Db) :
    Except DbErr Db × Nat :=
  withRetryAux op (maxAttempts - 1) 1

/-- Worker for `splitOnL`: scan the character list, emitting the accumulated
chunk each time the separator occurs; the fuel is the input length, which
bounds the scan (each step consumes at least one character). -/
def splitOnLAux (sep : List Char) : Nat → List Char → List Char →
    List (List Char)
  | 0, s, acc => [acc.reverse ++ s]
  | fuel + 1, s, acc =>
    match s with
    | [] => [acc.reverse]
    | c :: rest =>
      if sep.isPrefixOf (c :: rest) then
        acc.reverse :: splitOnLAux sep fuel ((c :: rest).drop sep.length) []
      else
        splitOnLAux sep fuel rest (c :: acc)

/-- Python's `str.split(sep)` for a non-empty separator, over character
lists. -/
def splitOnL (s sep : List Char) : List (List Char) :=
  splitOnLAux sep s.length s []

/-- Value of a non-empty digit string, `none` on any non-digit. -/
def digitsValAux : List Char → Nat → Option Nat
  | [], acc => some acc
  | c :: rest, acc =>
    if c.isDigit then digitsValAux rest (acc * 10 + (c.toNat - 48))
    else none

/-- Python's `int(s)` on a string: optional leading minus then digits, `none`
(a `ValueError`) otherwise. (Python also tolerates surrounding whitespace
and a leading plus, which no claim depends on.) -/
def charsToInt : List Char → Option Int
  | [] => none
  | c :: rest =>
    if c = Char.ofNat 45 then
      match rest with
      | [] => none
      | _ => (digitsValAux rest 0).map (fun n => -(n : Int))
    else
      (digitsValAux (c :: rest) 0).map (fun n => (n : Int))

/-- The href parse of `upsert_with_retry`: `'/shows/' in show_link` holds iff
splitting on `"/shows/"` yields at least two parts, and then
`int(show_link.split('/shows/')[-1])` parses the last part, `None` on
`ValueError`. -/
def parseShowLink (link : String) : Option Int :=
  let parts := splitOnL link.toList "/shows/".toList
  if parts.length ≥ 2 then (parts.getLast?).bind charsToInt else none

/-- Python's `a or b` on an optional integer and an integer: `b` when `a` is
falsy (`None` or `0`), else the value of `a`. -/
def pyOrInt (a : Option Int) (b : Int) : Int :=
  match a with
  | some n => if n = 0 then b else n
  | none => b

/-- The owning-show-id resolution chain of `upsert_with_retry`
(episode_service.py lines 240-251): start from the embedded
`episode.show.id`; if that is falsy, try to parse `_links.show.href`
(keeping the falsy value when the guard or the parse fails); finally
`episode_show_id = episode_show_id or show_id` falls back to the unit
message's show id. The result `0` means every step was falsy, which the
caller treats as unresolved (`if not episode_show_id`). -/
def resolveEpisodeShowId (ep : EpisodeRec) (showId : Int) : Int :=
  let fromShow := ep.showRef
  let resolved : Option Int :=
    if pyTruthy fromShow then
      fromShow
    else
      match ep.showHref with
      | some link =>
        match parseShowLink link with
        | some n => some n
        | none => fromShow
      | none => fromShow
  pyOrInt resolved showId

/-- The body of the decorated `upsert_with_retry` closure for one episode:
open a session, resolve the owning show id, skip (returning successfully)
when it is unresolved, otherwise call the repository upsert. `execFail`
gives the statement outcome for the given attempt number. The repository
swallows its own exceptions, so this operation never produces an error. -/
def upsertWithRetryOp (ep : EpisodeRec) (showId : Int) (db : Db)
    (execFail : Nat → Option DbErr) (attempt : Nat) : Except DbErr Db :=
  let esid := resolveEpisodeShowId ep showId
  if esid = 0 then
    Except.ok db
  else
    upsert_episode ep esid db (execFail attempt)

/-- State threaded through the per-episode loop of `handle_show_episodes`:
the sink, the `update_episode_import_progress(import_id, episode_id,
success)` calls issued so far, an instrumentation log of (episode id,
attempts used) per record, the count of repository calls issued, and
`success_count`. -/
structure LoopState where
  db : Db
  progress : List (String × Int × Bool)
  attempts : List (Option Int × Nat)
  repoCalls : Nat
  successCount : Nat
deriving DecidableEq, Repr

/-- The progress-tracking call made after processing one episode: issued only
when `import_id` and the episode's `id` are truthy (`if import_id:` /
`if episode_id:`). -/
def progressEntry (importId : Option String) (ep : EpisodeRec)
    (success : Bool) : List (String × Int × Bool) :=
  match importId with
  | none => []
  | some imp =>
    if imp = "" then []
    else
      match ep.id with
      | none => []
      | some eid => if eid = 0 then [] else [(imp, eid, success)]

/-- One iteration of the episode loop of `handle_show_episodes` (lines
229-278): a falsy or non-dict item is skipped; otherwise the decorated
`upsert_with_retry` runs under `with_retry('database_write', max_attempts=3)`
and the outcome is converted into a progress update — success increments
`success_count` and records success, an exception after retries logs and
records failure. Each attempt that reaches the repository counts one
repository call. -/
def processOneEpisode (importId : Option String) (showId : Int)
    (execFail : Nat → Option DbErr) (st : LoopState)
    (item : Option EpisodeRec) : LoopState :=
  match item with
  | none => st
  | some ep =>
    let res := withRetry 3 (upsertWithRetryOp ep showId st.db execFail)
    let repoDelta := if resolveEpisodeShowId ep showId = 0 then 0 else res.2
    match res.1 with
    | Except.ok db' =>
      ⟨db', st.progress ++ progressEntry importId ep true,
        st.attempts ++ [(ep.id, res.2)], st.repoCalls + repoDelta,
        st.successCount + 1⟩
    | Except.error _ =>
      ⟨st.db, st.progress ++ progressEntry importId ep false,
        st.attempts ++ [(ep.id, res.2)], st.repoCalls + repoDelta,
        st.successCount⟩

/-- A parsed queue-message body (`message.get_json()`), restricted to the
keys `handle_show_episodes` reads. -/
structure QMsg where
  action : Option String
  showId : Option Int
  importId : Option String
  batchNumber : Option Nat
  batchSize : Option Nat
deriving DecidableEq, Repr

/-- Observable effects of one `handle_show_episodes` invocation. -/
structure HandlerEffects where
  /-- arguments passed to `_process_shows_batch` when the message carried
  `action == "process_batch"` -/
  batchCall : Option (Option String × Option Nat × Nat)
  /-- show ids for which `tvmaze_api.get_episodes` was called -/
  apiCalls : List Int
  db : Db
  progress : List (String × Int × Bool)
  attempts : List (Option Int × Nat)
  repoCalls : Nat
  successCount : Nat
  raised : Bool
deriving DecidableEq, Repr

/-- Embedding of the `handle_show_episodes` closure of
`EpisodeService.get_show_episodes`: dispatch `action == "process_batch"`
messages to the batch processor (with `batch_size` defaulting to 1000);
otherwise require `show_id` — when it is absent, log and return successfully
without calling the API or the repository. With a show id, fetch the
episodes (`api`), treat `None` or an empty list as a successful no-op, and
run the per-episode loop. `execFail i a` is the statement outcome for record
index `i` at attempt `a`. The batch branch's own effects are modelled by
`processShowsBatch` and only the invocation is recorded here. -/
def handleShowEpisodes (msg : QMsg)
    (api : Int → Option (List (Option EpisodeRec)))
    (execFail : Nat → Nat → Option DbErr) (db0 : Db) : HandlerEffects :=
  if msg.action = some "process_batch" then
    ⟨some (msg.importId, msg.batchNumber, msg.batchSize.getD 1000),
      [], db0, [], [], 0, 0, false⟩
  else
    match msg.showId with
    | none => ⟨none, [], db0, [], [], 0, 0, false⟩
    | some sid =>
      match api sid with
      | none => ⟨none, [sid], db0, [], [], 0, 0, false⟩
      | some eps =>
        if eps.isEmpty then
          ⟨none, [sid], db0, [], [], 0, 0, false⟩
        else
          let final := eps.enum.foldl
            (fun st p => processOneEpisode msg.importId sid (execFail p.1) st p.2)
            ⟨db0, [], [], 0, 0⟩
          ⟨none, [sid], final.db, final.progress, final.attempts,
            final.repoCalls, final.successCount, false⟩

/-- An Import Record held in the tracking store (the fields exercised by the
claims: status, the two counters, and the last processed item id). -/
structure ImportRecord where
  status : ImportStatus
  completedEpisodes : Nat
  failedEpisodes : Nat
  lastProcessedEpisodeId : Option Int
deriving DecidableEq, Repr

/-- The tracking store: Import Records keyed by `import_id` (the RowKey of
the tracking table; the partition key is a fixed constant). -/
abbrev TrackingStore : Type := List (String × ImportRecord)

/-- Point lookup in the tracking store. -/
def storeGet : TrackingStore → String → Option ImportRecord
  | [], _ => none
  | (k, r) :: rest, key => if k = key then some r else storeGet rest key

/-- Store an Import Record, replacing an existing one with the same id. -/
def storeSet : TrackingStore → String → ImportRecord → TrackingStore
  | [], key, rec => [(key, rec)]
  | (k, r) :: rest, key, rec =>
    if k = key then (key, rec) :: rest else (k, r) :: storeSet rest key rec

/-- Modelled from the spec: `MonitoringService.update_episode_import_progress`
(monitoring_service.py is not under src/; behavior per section 4.5
`record_outcome` and tests/services/test_monitoring_service.py): point-read
the Import Record for `import_id`; if it is absent, log an error and perform
no write; otherwise increment `CompletedEpisodes` or `FailedEpisodes`, set
`LastProcessedEpisodeId`, and write the record back. -/
def updateEpisodeImportProgress (store : TrackingStore) (importId : String)
    (episodeId : Int) (success : Bool) : TrackingStore :=
  match storeGet store importId with
  | none => store
  | some rec =>
    let rec' :=
      if success then
        { rec with completedEpisodes := rec.completedEpisodes + 1,
                   lastProcessedEpisodeId := some episodeId }
      else
        { rec with failedEpisodes := rec.failedEpisodes + 1,
                   lastProcessedEpisodeId := some episodeId }
    storeSet store importId rec'

/-- Replay a handler's progress calls against the tracking store. -/
def applyProgress (store : TrackingStore)
    (entries : List (String × Int × Bool)) : TrackingStore :=
  entries.foldl (fun s e => updateEpisodeImportProgress s e.1 e.2.1 e.2.2) store

/-- The batch of entities a call at `batchNumber` works on: the collect loop
reduces to drop-then-take over the catalog (proved below). -/
def batchSlice (cat : List Entity) (batchNumber batchSize : Nat) :
    List Entity :=
  (cat.drop (batchNumber * batchSize)).take batchSize

/-- Concrete catalog with identifiers 1, 2, 3. -/
def cat3 : List Entity := [⟨some 1⟩, ⟨some 2⟩, ⟨some 3⟩]

/-- Concrete catalog with identifiers 1, 2 (batch size divides the count). -/
def cat2 : List Entity := [⟨some 1⟩, ⟨some 2⟩]

/-- Concrete catalog whose first entity is missing its `RowKey`. -/
def catNoKey : List Entity := [⟨none⟩, ⟨some 7⟩]

/-- An episode dict with the given id whose embedded show reference is show
10 and whose other keys are absent. -/
def epWithId (n : Int) : EpisodeRec :=
  ⟨some n, some 10, none, none, none, none, none, none, none, none, none,
    none, none, none, none, none⟩

/-- An episode dict with id 5 and no show information at all (no embedded
`show.id`, no `_links.show.href`). -/
def epNoShow : EpisodeRec :=
  ⟨some 5, none, none, none, none, none, none, none, none, none, none,
    none, none, none, none, none⟩

/-- An episode dict with id 9, no embedded show reference, and a parseable
`_links.show.href`. -/
def epHref : EpisodeRec :=
  ⟨some 9, none, some "/shows/42", none, none, none, none, none, none, none,
    none, none, none, none, none, none⟩

/-- An episode dict whose href parses to the falsy show id 0. -/
def epHref0 : EpisodeRec :=
  ⟨some 9, none, some "/shows/0", none, none, none, none, none, none, none,
    none, none, none, none, none, none⟩

/-- Unit message for show 10 in import "imp". -/
def msgShow10 : QMsg := ⟨none, some 10, some "imp", none, none⟩

/-- Unit message whose `show_id` is the falsy value 0 (it passes the
`is None` check but makes the final resolution fallback falsy). -/
def msgShow0 : QMsg := ⟨none, some 0, some "imp", none, none⟩

/-- Unit message with no `show_id` at all. -/
def msgNoShowId : QMsg := ⟨none, none, some "imp", none, none⟩

/-- Upstream API returning five episode records for any show. -/
def apiFive : Int → Option (List (Option EpisodeRec)) :=
  fun _ =>
    some [some (epWithId 1), some (epWithId 2), some (epWithId 3),
      some (epWithId 4), some (epWithId 5)]

/-- Upstream API returning the single show-less episode record. -/
def apiNoShow : Int → Option (List (Option EpisodeRec)) :=
  fun _ => some [some epNoShow]

/-- Statement-outcome oracle: record index 2 (the third record) raises
`SQLAlchemyError` on every attempt; all other records succeed. -/
def failThird : Nat → Nat → Option DbErr :=
  fun i _ => if i = 2 then some DbErr.sqlalchemy else none

/-- Statement-outcome oracle with no failures. -/
def noFail : Nat → Nat → Option DbErr := fun _ _ => none

/-- A fresh Import Record as written by `start_show_episodes_import_tracking`
(status IN_PROGRESS, zeroed counters). -/
def freshRecord : ImportRecord := ⟨ImportStatus.inProgress, 0, 0, none⟩

/-- A tracking store holding one unrelated Import Record. -/
def storeOther : TrackingStore := [("other_import", freshRecord)]

/-- While the counter is below the skip count, the loop just drops
entities. -/
lemma collectLoop_skip (skip k : Nat) :
    ∀ (ents : List Entity) (c : Nat), c ≤ skip →
      collectLoop skip k ents c [] =
        collectLoop skip k (ents.drop (skip - c)) skip [] := by
  intro ents
  induction ents with
  | nil => intro c _; simp [collectLoop]
  | cons e rest ih =>
    intro c hc
    by_cases h : c < skip
    · have hstep : skip - c = (skip - (c + 1)) + 1 := by omega
      rw [collectLoop, if_pos h, ih (c + 1) h, hstep]
      rfl
    · have : c = skip := by omega
      subst this
      simp

/-- Once the counter has reached the skip count, the loop appends entities
until the batch is full. -/
lemma collectLoop_collect (skip k : Nat) :
    ∀ (ents : List Entity) (c : Nat) (batch : List Entity), skip ≤ c →
      collectLoop skip k ents c batch =
        batch ++ ents.take (k - batch.length) := by
  intro ents
  induction ents with
  | nil => intro c batch _; simp [collectLoop]
  | cons e rest ih =>
    intro c batch hc
    have h : ¬ c < skip := by omega
    by_cases hb : batch.length < k
    · have hk : k - batch.length = (k - (batch.length + 1)) + 1 := by omega
      rw [collectLoop, if_neg h, if_pos hb, ih (c + 1) (batch ++ [e]) (by omega),
        hk]
      simp [List.take_succ_cons]
    · have hk : k - batch.length = 0 := by omega
      rw [collectLoop, if_neg h, if_neg hb, hk]
      simp

/-- The collect loop of `_process_shows_batch` computes exactly the
drop-then-take slice of the catalog. -/
lemma collectBatch_eq (ents : List Entity) (skip k : Nat) :
    collectBatch ents skip k = (ents.drop skip).take k := by
  rw [collectBatch, collectLoop_skip skip k ents 0 (Nat.zero_le skip),
    collectLoop_collect skip k _ skip [] (Nat.le_refl skip)]
  simp

/-- When every enqueue succeeds, the enqueue loop emits one unit message per
entity that has a `RowKey` and never raises. -/
lemma queueShowsLoop_allOk (imp : String) :
    ∀ (batch : List Entity) (idx q : Nat),
      queueShowsLoop imp allOk batch idx q =
        ⟨unitMsgsOf imp batch,
          q + (batch.filterMap Entity.rowKey).length,
          idx + (batch.filterMap Entity.rowKey).length, false⟩ := by
  intro batch
  induction batch with
  | nil => intro idx q; simp [queueShowsLoop, unitMsgsOf]
  | cons e rest ih =>
    intro idx q
    match he : e.rowKey with
    | none =>
      rw [queueShowsLoop]
      simp [he, ih, unitMsgsOf, List.filterMap_cons]
    | some sid =>
      rw [queueShowsLoop]
      simp [he, allOk, ih, unitMsgsOf, List.filterMap_cons]
      omega

/-- Full characterization of a `_process_shows_batch` call in which every
enqueue succeeds, in terms of the raw catalog slice it collects. -/
lemma processShowsBatch_allOk (cat : List Entity) (imp : String) (b k : Nat) :
    processShowsBatch cat imp b k allOk =
      if (batchSlice cat b k).isEmpty then
        ⟨[], [], [ImportStatus.completed], none, false⟩
      else if (batchSlice cat b k).length = k then
        ⟨unitMsgsOf imp (batchSlice cat b k), [⟨imp, b + 1, k⟩], [],
          some true, false⟩
      else
        ⟨unitMsgsOf imp (batchSlice cat b k), [], [], some false, false⟩ := by
  rw [processShowsBatch, collectBatch_eq]
  by_cases he : ((cat.drop (b * k)).take k).isEmpty
  · simp [batchSlice, he]
  · rw [if_neg he, queueShowsLoop_allOk]
    by_cases hl : ((cat.drop (b * k)).take k).length = k
    · simp [batchSlice, he, hl, allOk]
    · have h2 : ¬ k ≤ cat.length - b * k := by
        intro h
        refine hl ?_
        simp only [List.length_take, List.length_drop]
        omega
      simp [batchSlice, he, hl, allOk, h2]

/-- A batch in which every entity has an identifier yields one unit message
per entity. -/
lemma unitMsgsOf_length (imp : String) :
    ∀ (batch : List Entity), (∀ e ∈ batch, e.rowKey.isSome) →
      (unitMsgsOf imp batch).length = batch.length := by
  intro batch
  induction batch with
  | nil => intro _; rfl
  | cons e rest ih =>
    intro h
    have he := h e (List.mem_cons_self e rest)
    have hr : (unitMsgsOf imp rest).length = rest.length :=
      ih (fun e' he' => h e' (List.mem_cons_of_mem _ he'))
    match hk : e.rowKey with
    | none => rw [hk] at he; simp at he
    | some sid =>
      simp only [unitMsgsOf, List.filterMap_cons, hk, Option.map_some'] at hr ⊢
      simp [hr]

/-- Counts and termination status of a full enumeration run starting at an
arbitrary batch number, assuming a well-formed catalog, a positive batch
size, no enqueue failures and enough fuel. -/
lemma runImportAux_spec (cat : List Entity) (imp : String) (k : Nat)
    (hk : 0 < k) (hwf : ∀ e ∈ cat, e.rowKey.isSome) :
    ∀ (fuel b : Nat), (cat.drop (b * k)).length / k + 1 ≤ fuel →
      (runImportAux cat imp allOk2 fuel b k).unitMsgs.length =
          (cat.drop (b * k)).length
      ∧ (runImportAux cat imp allOk2 fuel b k).contMsgs.length =
          (cat.drop (b * k)).length / k
      ∧ (runImportAux cat imp allOk2 fuel b k).raised = false
      ∧ (runImportAux cat imp allOk2 fuel b k).fuelOut = false
      ∧ (if k ∣ (cat.drop (b * k)).length then
           (runImportAux cat imp allOk2 fuel b k).completeCalls =
               [ImportStatus.completed]
           ∧ (runImportAux cat imp allOk2 fuel b k).lastHasMore = none
         else
           (runImportAux cat imp allOk2 fuel b k).completeCalls = []
           ∧ (runImportAux cat imp allOk2 fuel b k).lastHasMore =
               some false) := by
  intro fuel
  induction fuel with
  | zero => intro b h; exact absurd h (Nat.not_succ_le_zero _)
  | succ fuel ih =>
    intro b hfuel
    have hP := processShowsBatch_allOk cat imp b k
    have hslwf : ∀ e ∈ batchSlice cat b k, e.rowKey.isSome := by
      intro e hmem
      exact hwf e (List.drop_subset _ _ (List.take_subset _ _ hmem))
    have hstep : runImportAux cat imp allOk2 (fuel + 1) b k =
        (match (processShowsBatch cat imp b k allOk).contMsgs with
         | [] => traceOfBatch (processShowsBatch cat imp b k allOk)
         | c :: _ =>
           mergeTrace (processShowsBatch cat imp b k allOk)
             (runImportAux cat imp allOk2 fuel c.batchNumber c.batchSize)) :=
      rfl
    by_cases hemp : (batchSlice cat b k).isEmpty
    · have hsl : batchSlice cat b k = [] := by
        cases hsl : batchSlice cat b k with
        | nil => rfl
        | cons a l => rw [hsl] at hemp; simp [List.isEmpty] at hemp
      have hn : (cat.drop (b * k)).length = 0 := by
        have hlen := congrArg List.length hsl
        simp only [batchSlice, List.length_take, List.length_nil] at hlen
        omega
      rw [hstep, hP, if_pos hemp]
      simp [traceOfBatch, hn]
    · by_cases hfull : (batchSlice cat b k).length = k
      · have hlen : k ≤ (cat.drop (b * k)).length := by
          simp only [batchSlice, List.length_take] at hfull
          omega
        have hdd2 : cat.drop ((b + 1) * k) = (cat.drop (b * k)).drop k := by
          rw [List.drop_drop]
          congr 1
          ring
        have hlen2 : (cat.drop ((b + 1) * k)).length =
            (cat.drop (b * k)).length - k := by
          rw [hdd2, List.length_drop]
        have hdiv : (cat.drop (b * k)).length / k =
            ((cat.drop (b * k)).length - k) / k + 1 := by
          have h1 := Nat.add_div_right ((cat.drop (b * k)).length - k) hk
          rw [Nat.sub_add_cancel hlen] at h1
          exact h1
        obtain ⟨h1, h2, h3, h4, h5⟩ := ih (b + 1) (by rw [hlen2]; omega)
        have hul := unitMsgsOf_length imp _ hslwf
        rw [hstep, hP, if_neg hemp, if_pos hfull]
        simp only [mergeTrace]
        refine ⟨?_, ?_, ?_, ?_, ?_⟩
        · rw [List.length_append, hul, hfull, h1, hlen2]
          omega
        · rw [List.singleton_append, List.length_cons, h2, hlen2, hdiv]
        · simp [h3]
        · simp [h4]
        · have hdd : (k ∣ (cat.drop (b * k)).length) ↔
              (k ∣ (cat.drop ((b + 1) * k)).length) := by
            rw [hlen2]
            constructor
            · intro h
              exact Nat.dvd_sub' h (Nat.dvd_refl k)
            · intro h
              have hsum : (cat.drop (b * k)).length =
                  ((cat.drop (b * k)).length - k) + k := by omega
              rw [hsum]
              exact Nat.dvd_add h (Nat.dvd_refl k)
          by_cases hd : k ∣ (cat.drop (b * k)).length
          · rw [if_pos hd]
            rw [if_pos (hdd.mp hd)] at h5
            simp [h5.1, h5.2]
          · rw [if_neg hd]
            rw [if_neg (fun hx => hd (hdd.mpr hx))] at h5
            simp [h5.1, h5.2]
      · have hlt : (cat.drop (b * k)).length < k := by
          simp only [batchSlice, List.length_take] at hfull
          omega
        have hslice_len : (batchSlice cat b k).length =
            (cat.drop (b * k)).length := by
          simp only [batchSlice, List.length_take]
          omega
        have hpos : 0 < (cat.drop (b * k)).length := by
          cases hc : cat.drop (b * k) with
          | nil =>
            exfalso
            apply hemp
            simp [batchSlice, hc]
          | cons a l => simp [hc]
        have hnd : ¬ k ∣ (cat.drop (b * k)).length := by
          intro hd
          have := Nat.eq_zero_of_dvd_of_lt hd hlt
          omega
        have hlt2 : cat.length - b * k < k := by
          rw [List.length_drop] at hlt
          exact hlt
        have hnd2 : ¬ k ∣ cat.length - b * k := by
          rw [List.length_drop] at hnd
          exact hnd
        rw [hstep, hP, if_neg hemp, if_neg hfull]
        simp [traceOfBatch, unitMsgsOf_length imp _ hslwf, hslice_len,
          Nat.div_eq_of_lt hlt2, hnd2]

/-- Enqueue loop under an oracle that fails exactly the enqueue with index
`idx + i`: the first `i` unit messages go out, then the loop aborts with an
exception. -/
lemma queueShowsLoop_failAt (imp : String) :
    ∀ (batch : List Entity) (i idx q : Nat),
      (∀ e ∈ batch, e.rowKey.isSome) → i < batch.length →
      queueShowsLoop imp (fun j => decide (j ≠ idx + i)) batch idx q =
        ⟨(unitMsgsOf imp batch).take i, q + i, idx + i, true⟩ := by
  intro batch
  induction batch with
  | nil => intro i idx q _ hi; simp at hi
  | cons e rest ih =>
    intro i idx q hwf hi
    have he := hwf e (List.mem_cons_self e rest)
    match hk : e.rowKey with
    | none => rw [hk] at he; simp at he
    | some sid =>
      cases i with
      | zero =>
        rw [queueShowsLoop]
        simp [hk]
      | succ i =>
        have harith : idx + (i + 1) = (idx + 1) + i := by omega
        have hwf2 : ∀ e' ∈ rest, e'.rowKey.isSome :=
          fun e' he' => hwf e' (List.mem_cons_of_mem _ he')
        have hi2 : i < rest.length := by
          simp only [List.length_cons] at hi
          omega
        have hir := ih i (idx + 1) (q + 1) hwf2 hi2
        rw [queueShowsLoop]
        simp only [hk, harith]
        have hcond : idx ≠ (idx + 1) + i := by omega
        simp only [hir, unitMsgsOf, List.filterMap_cons, hk,
          Option.map_some', List.take_succ_cons, hcond]
        simp [hcond]
        all_goals omega

/-- A column updated with its own insert value is unchanged. -/
lemma updCol_self (v : Option Val) : updCol v v = v := by
  cases v <;> rfl

/-- Re-applying the same column update is a no-op. -/
lemma updCol_idem (v o : Option Val) : updCol v (updCol v o) = updCol v o := by
  cases v <;> rfl

/-- Updating the freshly inserted row with the same values is a no-op. -/
lemma updateRow_insertRow (ep : EpisodeRec) (sid : Int) :
    updateRow ep sid (insertRow ep sid) = insertRow ep sid := by
  simp [updateRow, insertRow, updCol_self]

/-- Re-applying the same row update is a no-op. -/
lemma updateRow_idem (ep : EpisodeRec) (sid : Int) (old : EpisodeRow) :
    updateRow ep sid (updateRow ep sid old) = updateRow ep sid old := by
  simp [updateRow, updCol_idem]

/-- Looking up a key right after storing it yields the stored row. -/
lemma dbGet_dbSet_self (k : Int) (r : EpisodeRow) :
    ∀ (db : Db), dbGet (dbSet db k r) k = some r := by
  intro db
  induction db with
  | nil => simp [dbSet, dbGet]
  | cons p rest ih =>
    obtain ⟨k2, r2⟩ := p
    by_cases h : k2 = k
    · simp [dbSet, dbGet, h]
    · simp [dbSet, dbGet, h, ih]

/-- Storing twice under the same key keeps only the second row. -/
lemma dbSet_dbSet_self (k : Int) (r r2 : EpisodeRow) :
    ∀ (db : Db), dbSet (dbSet db k r) k r2 = dbSet db k r2 := by
  intro db
  induction db with
  | nil => simp [dbSet]
  | cons p rest ih =>
    obtain ⟨k3, r3⟩ := p
    by_cases h : k3 = k
    · simp [dbSet, h]
    · simp [dbSet, h, ih]

/-- The upsert statement is idempotent on the sink. -/
lemma applyUpsertStmt_idem (ep : EpisodeRec) (sid i : Int) (db : Db) :
    applyUpsertStmt ep sid i (applyUpsertStmt ep sid i db) =
      applyUpsertStmt ep sid i db := by
  cases h : dbGet db i with
  | none =>
    have h1 : applyUpsertStmt ep sid i db = dbSet db i (insertRow ep sid) := by
      simp [applyUpsertStmt, h]
    rw [h1, applyUpsertStmt, dbGet_dbSet_self]
    simp [updateRow_insertRow, dbSet_dbSet_self]
  | some old =>
    have h1 : applyUpsertStmt ep sid i db =
        dbSet db i (updateRow ep sid old) := by
      simp [applyUpsertStmt, h]
    rw [h1, applyUpsertStmt, dbGet_dbSet_self]
    simp [updateRow_idem, dbSet_dbSet_self]

/-- `upsert_episode` always returns normally, with the sink state given by
`upsertEpisodeRun`. -/
lemma upsert_episode_ok (ep : EpisodeRec) (sid : Int) (db : Db)
    (f : Option DbErr) :
    upsert_episode ep sid db f =
      Except.ok (upsertEpisodeRun ep sid db f) := by
  cases hid : ep.id with
  | none => simp [upsertEpisodeRun, upsert_episode, hid]
  | some i =>
    by_cases hz : i = 0
    · simp [upsertEpisodeRun, upsert_episode, hid, hz]
    · cases hf : f with
      | none => simp [upsertEpisodeRun, upsert_episode, upsertEpisodeTry, hid, hz]
      | some e =>
        cases e <;>
          simp [upsertEpisodeRun, upsert_episode, upsertEpisodeTry, hid, hz]

/-- A failing statement leaves the sink unchanged (the repository swallows
the exception). -/
lemma upsertEpisodeRun_fail (ep : EpisodeRec) (sid : Int) (db : Db)
    (e : DbErr) : upsertEpisodeRun ep sid db (some e) = db := by
  cases hid : ep.id with
  | none => simp [upsertEpisodeRun, upsert_episode, hid]
  | some i =>
    by_cases hz : i = 0
    · simp [upsertEpisodeRun, upsert_episode, hid, hz]
    · cases e <;>
        simp [upsertEpisodeRun, upsert_episode, upsertEpisodeTry, hid, hz]

/-- The per-record operation wrapped by the retry decorator never produces
an error: either the skip path or the repository's swallowed-exception path
returns normally. -/
lemma upsertWithRetryOp_ok (ep : EpisodeRec) (sid : Int) (db : Db)
    (f : Nat → Option DbErr) (a : Nat) :
    upsertWithRetryOp ep sid db f a =
      Except.ok (if resolveEpisodeShowId ep sid = 0 then db
        else upsertEpisodeRun ep (resolveEpisodeShowId ep sid) db (f a)) := by
  rw [upsertWithRetryOp]
  by_cases h : resolveEpisodeShowId ep sid = 0
  · simp [h]
  · simp [h, upsert_episode_ok]

/-- When the first attempt succeeds, the retry wrapper returns after exactly
one attempt. -/
lemma withRetry_first_ok (m : Nat) (op : Nat → Except DbErr Db) (x : Db)
    (h : op 1 = Except.ok x) : withRetry m op = (Except.ok x, 1) := by
  rw [withRetry, withRetryAux, h]

/-- Closed form of one iteration of the episode loop: the retry wrapper
reports success after one attempt, the record is counted as completed, and
the sink changes only on a non-skipped, non-failing statement. -/
lemma processOneEpisode_ok (imp : Option String) (sid : Int)
    (f : Nat → Option DbErr) (st : LoopState) (ep : EpisodeRec) :
    processOneEpisode imp sid f st (some ep) =
      ⟨(if resolveEpisodeShowId ep sid = 0 then st.db
         else upsertEpisodeRun ep (resolveEpisodeShowId ep sid) st.db (f 1)),
        st.progress ++ progressEntry imp ep true,
        st.attempts ++ [(ep.id, 1)],
        st.repoCalls + (if resolveEpisodeShowId ep sid = 0 then 0 else 1),
        st.successCount + 1⟩ := by
  rw [processOneEpisode]
  have hw := withRetry_first_ok 3 (upsertWithRetryOp ep sid st.db f) _
    (upsertWithRetryOp_ok ep sid st.db f 1)
  rw [hw]

/-- The final `episode_show_id or show_id` step falls through to the unit
message's show id whenever the accumulated value is falsy. -/
lemma resolve_falsy (o : Option Int) (sid : Int) (h : pyTruthy o = false) :
    pyOrInt o sid = sid := by
  cases o with
  | none => rfl
  | some n =>
    have hz : n = 0 := by simpa [pyTruthy] using h
    simp [pyOrInt, hz]

/-- C1 (counterexample): for the claim's own scenario — catalog {1, 2, 3},
`batch_size = 2` — the full run (first call plus the one continuation it
enqueues) never passes any status to `complete_show_episodes_import`: the
code marks COMPLETED only when a batch call collects no entities, and the
final partial batch enqueues no further continuation, so no such call ever
happens. This refutes the claim's final conjunct that the Import Record is
marked COMPLETED when enumeration is exhausted. -/
theorem c1_counterexample :
    (runImport cat3 "imp" 2 allOk2 5).completeCalls = []
    ∧ ImportStatus.completed ∉
        (runImport cat3 "imp" 2 allOk2 5).completeCalls := by
  decide

/-- C1 (amended): with catalog {1, 2, 3} and `batch_size = 2`, the first
batch call enqueues UnitMessage 1, UnitMessage 2 and one continuation with
batch_number 1; the second call enqueues UnitMessage 3 only, computes
`has_more = false` and enqueues no further continuation; but no COMPLETED
status is ever written — the Import Record is closed only when a batch call
finds no entities, which never happens here, so it stays IN_PROGRESS. -/
theorem c1_amended_scenario :
    processShowsBatch cat3 "imp" 0 2 allOk =
      ⟨[⟨1, some "imp"⟩, ⟨2, some "imp"⟩], [⟨"imp", 1, 2⟩], [],
        some true, false⟩
    ∧ processShowsBatch cat3 "imp" 1 2 allOk =
      ⟨[⟨3, some "imp"⟩], [], [], some false, false⟩
    ∧ runImport cat3 "imp" 2 allOk2 5 =
      ⟨[⟨1, some "imp"⟩, ⟨2, some "imp"⟩, ⟨3, some "imp"⟩],
        [⟨"imp", 1, 2⟩], [], some false, false, false⟩ := by
  decide

/-- C2 (counterexample): in a batch of five records where record #3's
database statement raises on every attempt, the repository swallows the
error, so the retry wrapper sees success after exactly one attempt for every
record, all five records are reported to progress tracking as successes, and
the Import Record ends at 5 completed / 0 failed — not the claimed 4
completed / 1 failed with 3 persist attempts. Records 1, 2, 4, 5 are
persisted and record 3 silently is not. -/
theorem c2_counterexample :
    (handleShowEpisodes msgShow10 apiFive failThird []).progress =
      [("imp", 1, true), ("imp", 2, true), ("imp", 3, true),
        ("imp", 4, true), ("imp", 5, true)]
    ∧ (handleShowEpisodes msgShow10 apiFive failThird []).attempts =
      [(some 1, 1), (some 2, 1), (some 3, 1), (some 4, 1), (some 5, 1)]
    ∧ dbGet (handleShowEpisodes msgShow10 apiFive failThird []).db 3 = none
    ∧ (dbGet (handleShowEpisodes msgShow10 apiFive failThird []).db 1).isSome
        = true
    ∧ (dbGet (handleShowEpisodes msgShow10 apiFive failThird []).db 2).isSome
        = true
    ∧ (dbGet (handleShowEpisodes msgShow10 apiFive failThird []).db 4).isSome
        = true
    ∧ (dbGet (handleShowEpisodes msgShow10 apiFive failThird []).db 5).isSome
        = true
    ∧ applyProgress [("imp", freshRecord)]
        (handleShowEpisodes msgShow10 apiFive failThird []).progress =
      [("imp", ⟨ImportStatus.inProgress, 5, 0, some 5⟩)] := by
  decide

/-- C2 (amended): a database error raised by the upsert statement is caught
and logged inside the repository and never reaches the retry wrapper: the
statement is attempted exactly once per record (the wrapper reports success
at attempt 1), the record is counted as completed with a success progress
update, and a record whose statement fails on every attempt is simply not
persisted while its siblings are unaffected. -/
theorem c2_amended_swallowed_persist_error :
    ∀ (imp : String) (sid : Int) (f : Nat → Option DbErr) (st : LoopState)
      (ep : EpisodeRec) (e : DbErr),
      (withRetry 3 (upsertWithRetryOp ep sid st.db f)).2 = 1
      ∧ (processOneEpisode (some imp) sid f st (some ep)).successCount =
          st.successCount + 1
      ∧ (processOneEpisode (some imp) sid f st (some ep)).attempts =
          st.attempts ++ [(ep.id, 1)]
      ∧ (processOneEpisode (some imp) sid f st (some ep)).progress =
          st.progress ++ progressEntry (some imp) ep true
      ∧ (processOneEpisode (some imp) sid (fun _ => some e) st
          (some ep)).db = st.db := by
  intro imp sid f st ep e
  refine ⟨?_, ?_, ?_, ?_, ?_⟩
  · rw [withRetry_first_ok 3 _ _ (upsertWithRetryOp_ok ep sid st.db f 1)]
  · rw [processOneEpisode_ok]
  · rw [processOneEpisode_ok]
  · rw [processOneEpisode_ok]
  · rw [processOneEpisode_ok]
    by_cases h : resolveEpisodeShowId ep sid = 0
    · simp [h]
    · simp [h, upsertEpisodeRun_fail]

/-- C3 (counterexample): for a catalog of 2 identifiers and `batch_size = 2`
(`k` divides `n`), the run emits 1 continuation message, not
`ceil(n/k) - 1 = 0` as the claim states: the full first batch cannot tell
"exactly full" from "more exist", so it enqueues a continuation whose batch
call then finds nothing. -/
theorem c3_counterexample :
    (runImport cat2 "imp" 2 allOk2 5).unitMsgs.length = 2
    ∧ (runImport cat2 "imp" 2 allOk2 5).contMsgs.length = 1
    ∧ (runImport cat2 "imp" 2 allOk2 5).contMsgs.length ≠
        (2 + 2 - 1) / 2 - 1 := by
  decide

/-- C3 (amended): for a catalog of `n` well-formed identifiers and
`batch_size = k > 0`, running from batch 0 through all continuations emits
exactly `n` unit messages and exactly `n / k` (floor) continuation messages
— which equals `ceil(n/k) - 1` only when `k` does not divide `n` — raising
nothing; when `k` does not divide `n` the final batch call computes
`has_more = false`, and when `k` divides `n` the final call instead finds an
empty batch and marks the import COMPLETED without computing `has_more`. -/
theorem c3_amended_batch_completeness :
    ∀ (cat : List Entity) (imp : String) (k fuel : Nat), 0 < k →
      (∀ e ∈ cat, e.rowKey.isSome) → cat.length / k + 1 ≤ fuel →
      (runImport cat imp k allOk2 fuel).unitMsgs.length = cat.length
      ∧ (runImport cat imp k allOk2 fuel).contMsgs.length = cat.length / k
      ∧ (runImport cat imp k allOk2 fuel).raised = false
      ∧ (runImport cat imp k allOk2 fuel).fuelOut = false
      ∧ (if k ∣ cat.length then
           (runImport cat imp k allOk2 fuel).completeCalls =
               [ImportStatus.completed]
           ∧ (runImport cat imp k allOk2 fuel).lastHasMore = none
         else
           (runImport cat imp k allOk2 fuel).completeCalls = []
           ∧ (runImport cat imp k allOk2 fuel).lastHasMore = some false) := by
  intro cat imp k fuel hk hwf hfuel
  have h := runImportAux_spec cat imp k hk hwf fuel 0 (by simpa using hfuel)
  simpa [runImport] using h

/-- C3 (witness): the amended completeness theorem applied to the concrete
catalog {1, 2, 3} with batch size 2 and fuel 2. -/
theorem c3_amended_batch_completeness_witness :
    0 < 2 ∧ (∀ e ∈ cat3, e.rowKey.isSome) ∧ cat3.length / 2 + 1 ≤ 2
    ∧ ((runImport cat3 "imp" 2 allOk2 2).unitMsgs.length = cat3.length
      ∧ (runImport cat3 "imp" 2 allOk2 2).contMsgs.length = cat3.length / 2
      ∧ (runImport cat3 "imp" 2 allOk2 2).raised = false
      ∧ (runImport cat3 "imp" 2 allOk2 2).fuelOut = false
      ∧ (if 2 ∣ cat3.length then
           (runImport cat3 "imp" 2 allOk2 2).completeCalls =
               [ImportStatus.completed]
           ∧ (runImport cat3 "imp" 2 allOk2 2).lastHasMore = none
         else
           (runImport cat3 "imp" 2 allOk2 2).completeCalls = []
           ∧ (runImport cat3 "imp" 2 allOk2 2).lastHasMore = some false)) :=
  ⟨by decide, by decide, by decide,
    c3_amended_batch_completeness cat3 "imp" 2 2 (by decide) (by decide)
      (by decide)⟩

/-- C4 (counterexample): catalog {1, 2, 3}, batch size 3, and an oracle under
which the second enqueue (call index 1) fails: identifier 1 is enqueued,
identifier 3 is never attempted, the Import Record is marked FAILED and the
exception propagates — the batch IS aborted, refuting the claim that
remaining identifiers are still attempted. -/
theorem c4_counterexample :
    (⟨3, some "imp"⟩ : UnitMsg) ∉
      (processShowsBatch cat3 "imp" 0 3 (fun j => decide (j ≠ 1))).unitMsgs
    ∧ (processShowsBatch cat3 "imp" 0 3 (fun j => decide (j ≠ 1))).raised =
        true
    ∧ (processShowsBatch cat3 "imp" 0 3
        (fun j => decide (j ≠ 1))).completeCalls = [ImportStatus.failed] := by
  decide

/-- C4 (amended): the enqueue loop of `_process_shows_batch` has no per-item
exception handling: if the enqueue of the i-th unit message fails, exactly
the first i unit messages have been enqueued, the remaining identifiers are
not attempted, no continuation is enqueued, the Import Record is marked
FAILED, and the exception propagates out of the batch call. (Per-item
isolation exists in `get_updates`, but not here.) -/
theorem c4_amended_enqueue_failure_aborts :
    ∀ (cat : List Entity) (imp : String) (b k i : Nat),
      (∀ e ∈ batchSlice cat b k, e.rowKey.isSome) →
      i < (batchSlice cat b k).length →
      processShowsBatch cat imp b k (fun j => decide (j ≠ i)) =
        ⟨(unitMsgsOf imp (batchSlice cat b k)).take i, [],
          [ImportStatus.failed], none, true⟩ := by
  intro cat imp b k i hwf hi
  have hne : ¬ (batchSlice cat b k).isEmpty := by
    cases hc : batchSlice cat b k with
    | nil => rw [hc] at hi; simp at hi
    | cons a l => simp [List.isEmpty]
  have hq := queueShowsLoop_failAt imp (batchSlice cat b k) i 0 0 hwf hi
  simp only [Nat.zero_add] at hq
  rw [processShowsBatch,
    show collectBatch cat (b * k) k = batchSlice cat b k from
      collectBatch_eq cat (b * k) k,
    if_neg hne, hq]
  simp

/-- C4 (witness): the amended abort theorem applied to catalog {1, 2, 3},
batch size 3, with the second enqueue failing. -/
theorem c4_amended_enqueue_failure_aborts_witness :
    (∀ e ∈ batchSlice cat3 0 3, e.rowKey.isSome)
    ∧ 1 < (batchSlice cat3 0 3).length
    ∧ processShowsBatch cat3 "imp" 0 3 (fun j => decide (j ≠ 1)) =
        ⟨(unitMsgsOf "imp" (batchSlice cat3 0 3)).take 1, [],
          [ImportStatus.failed], none, true⟩ :=
  ⟨by decide, by decide,
    c4_amended_enqueue_failure_aborts cat3 "imp" 0 3 1 (by decide)
      (by decide)⟩

/-- C5 (counterexample): a unit message whose `show_id` is the falsy value 0
(it passes the `is None` check) together with a record carrying no show
reference and no parseable link: the record is skipped — nothing is
persisted and the repository is never called — but the skip returns normally
from the retry wrapper, so the record is recorded as a SUCCESS in the Import
Record, not as the claimed failure. -/
theorem c5_counterexample :
    (handleShowEpisodes msgShow0 apiNoShow noFail []).progress =
      [("imp", 5, true)]
    ∧ (handleShowEpisodes msgShow0 apiNoShow noFail []).repoCalls = 0
    ∧ (handleShowEpisodes msgShow0 apiNoShow noFail []).db = [] := by
  decide

/-- C5 (amended): the owning show id is resolved by trying, in order, the
embedded `show.id` when truthy, then a truthy id parsed from
`_links.show.href`, then the message's `show_id`; when every step is falsy
the record is skipped with a logged error, nothing is persisted — but the
skip returns normally, so the record is counted as a COMPLETED item (a
success progress update), not as a failed one. -/
theorem c5_amended_parent_resolution :
    ∀ (ep : EpisodeRec) (sid : Int),
      (pyTruthy ep.showRef = true →
        resolveEpisodeShowId ep sid = ep.showRef.getD 0)
      ∧ (∀ n : Int, pyTruthy ep.showRef = false →
          ep.showHref.bind parseShowLink = some n → n ≠ 0 →
          resolveEpisodeShowId ep sid = n)
      ∧ (pyTruthy ep.showRef = false →
          ep.showHref.bind parseShowLink = none →
          resolveEpisodeShowId ep sid = sid)
      ∧ (pyTruthy ep.showRef = false →
          ep.showHref.bind parseShowLink = some 0 →
          resolveEpisodeShowId ep sid = sid)
      ∧ (∀ (imp : String) (f : Nat → Option DbErr) (st : LoopState),
          resolveEpisodeShowId ep sid = 0 →
          processOneEpisode (some imp) sid f st (some ep) =
            ⟨st.db, st.progress ++ progressEntry (some imp) ep true,
              st.attempts ++ [(ep.id, 1)], st.repoCalls,
              st.successCount + 1⟩) := by
  intro ep sid
  refine ⟨?_, ?_, ?_, ?_, ?_⟩
  · intro ht
    cases hr : ep.showRef with
    | none => rw [hr] at ht; simp [pyTruthy] at ht
    | some n =>
      rw [hr] at ht
      have hn : n ≠ 0 := by simpa [pyTruthy] using ht
      simp [resolveEpisodeShowId, pyOrInt, hr, pyTruthy, hn]
  · intro n ht hparse hn
    cases hh : ep.showHref with
    | none => rw [hh] at hparse; simp at hparse
    | some link =>
      rw [hh] at hparse
      simp only [Option.some_bind] at hparse
      simp [resolveEpisodeShowId, pyOrInt, ht, hh, hparse, hn]
  · intro ht hparse
    have hres : resolveEpisodeShowId ep sid = pyOrInt ep.showRef sid := by
      cases hh : ep.showHref with
      | none => simp [resolveEpisodeShowId, ht, hh]
      | some link =>
        rw [hh] at hparse
        simp only [Option.some_bind] at hparse
        simp [resolveEpisodeShowId, ht, hh, hparse]
    rw [hres]
    exact resolve_falsy ep.showRef sid ht
  · intro ht hparse
    cases hh : ep.showHref with
    | none => rw [hh] at hparse; simp at hparse
    | some link =>
      rw [hh] at hparse
      simp only [Option.some_bind] at hparse
      simp [resolveEpisodeShowId, pyOrInt, ht, hh, hparse]
  · intro imp f st hres
    rw [processOneEpisode_ok]
    simp [hres]

/-- C5 (witness): the resolution chain exercised on concrete records — the
embedded reference wins, then the href parse, then the message id; an
all-falsy chain resolves to 0 and the skipped record is counted as a
success. -/
theorem c5_amended_parent_resolution_witness :
    resolveEpisodeShowId (epWithId 1) 123 = 10
    ∧ resolveEpisodeShowId epHref 123 = 42
    ∧ resolveEpisodeShowId epNoShow 123 = 123
    ∧ resolveEpisodeShowId epHref0 123 = 123
    ∧ processOneEpisode (some "imp") 0 (fun _ => none) ⟨[], [], [], 0, 0⟩
        (some epNoShow) = ⟨[], [("imp", 5, true)], [(some 5, 1)], 0, 1⟩ :=
  ⟨(c5_amended_parent_resolution (epWithId 1) 123).1 (by decide),
    (c5_amended_parent_resolution epHref 123).2.1 42 (by decide) (by decide)
      (by decide),
    (c5_amended_parent_resolution epNoShow 123).2.2.1 (by decide) (by decide),
    (c5_amended_parent_resolution epHref0 123).2.2.2.1 (by decide)
      (by decide),
    (c5_amended_parent_resolution epNoShow 0).2.2.2.2 "imp" (fun _ => none)
      ⟨[], [], [], 0, 0⟩ (by decide)⟩

/-- C6 (counterexample): batch size 2 over a catalog whose first entity has
no `RowKey`: the malformed entity produces no unit message, yet it occupies
a batch slot — the collected batch has length 2, so `has_more` is computed
as true and a continuation is enqueued, although only one valid identifier
exists. Under the claim the batch would not be full and no continuation
would be enqueued. -/
theorem c6_counterexample :
    processShowsBatch catNoKey "imp" 0 2 allOk =
      ⟨[⟨7, some "imp"⟩], [⟨"imp", 1, 2⟩], [], some true, false⟩ := by
  decide

/-- C6 (amended): an entity missing its `RowKey` is skipped with a logged
warning and produces no unit message, but it DOES occupy one of the
`batch_size` slots: the batch is collected before the `RowKey` check, so
`has_more` is computed from the raw slice length, malformed entities
included. -/
theorem c6_amended_rowkey_skip :
    ∀ (cat : List Entity) (imp : String) (b k : Nat),
      (processShowsBatch cat imp b k allOk).unitMsgs =
        unitMsgsOf imp (batchSlice cat b k)
      ∧ (processShowsBatch cat imp b k allOk).hasMore =
          (if (batchSlice cat b k).isEmpty then none
           else some (decide ((batchSlice cat b k).length = k)))
      ∧ (processShowsBatch cat imp b k allOk).raised = false := by
  intro cat imp b k
  have h := processShowsBatch_allOk cat imp b k
  by_cases he : (batchSlice cat b k).isEmpty
  · have hsl : batchSlice cat b k = [] := by
      cases hc : batchSlice cat b k with
      | nil => rfl
      | cons a l => rw [hc] at he; simp [List.isEmpty] at he
    simp [h, he, hsl, unitMsgsOf]
  · by_cases hl : (batchSlice cat b k).length = k
    · simp [h, he, hl]
    · simp [h, he, hl]

/-- C7 (confirmed): a unit message that is not a continuation and carries no
`show_id` is logged and acknowledged: the handler returns successfully with
zero upstream API calls, zero repository calls, no sink change and no
progress updates — the message is dropped, not retried. -/
theorem c7_missing_item_id_dropped :
    ∀ (msg : QMsg) (api : Int → Option (List (Option EpisodeRec)))
      (f : Nat → Nat → Option DbErr) (db0 : Db),
      msg.action ≠ some "process_batch" → msg.showId = none →
      handleShowEpisodes msg api f db0 =
        ⟨none, [], db0, [], [], 0, 0, false⟩ := by
  intro msg api f db0 h1 h2
  simp [handleShowEpisodes, h1, h2]

/-- C7 (witness): the dropped-unit theorem applied to a concrete message
lacking `show_id`. -/
theorem c7_missing_item_id_dropped_witness :
    msgNoShowId.action ≠ some "process_batch" ∧ msgNoShowId.showId = none
    ∧ handleShowEpisodes msgNoShowId apiFive noFail [] =
        ⟨none, [], [], [], [], 0, 0, false⟩ :=
  ⟨by decide, rfl,
    c7_missing_item_id_dropped msgNoShowId apiFive noFail [] (by decide) rfl⟩

/-- C8 (confirmed): the upsert is idempotent — persisting the same record
(same id, same field values, same parent id) twice leaves the sink in the
same final state as persisting it once, from any starting sink state
(including records without a usable id, for which both runs are no-ops). -/
theorem c8_upsert_idempotent :
    ∀ (ep : EpisodeRec) (sid : Int) (db : Db),
      upsertEpisodeRun ep sid (upsertEpisodeRun ep sid db none) none =
        upsertEpisodeRun ep sid db none := by
  intro ep sid db
  cases hid : ep.id with
  | none => simp [upsertEpisodeRun, upsert_episode, hid]
  | some i =>
    by_cases hz : i = 0
    · simp [upsertEpisodeRun, upsert_episode, hid, hz]
    · simp [upsertEpisodeRun, upsert_episode, upsertEpisodeTry, hid, hz,
        applyUpsertStmt_idem]

/-- C9 (confirmed, spec-modelled): a progress update for an `import_id` with
no existing Import Record logs an error and performs no write — the store is
returned unchanged: nothing is modified and nothing is created. -/
theorem c9_progress_absent_record_noop :
    ∀ (store : TrackingStore) (imp : String) (eid : Int) (success : Bool),
      storeGet store imp = none →
      updateEpisodeImportProgress store imp eid success = store := by
  intro store imp eid success h
  simp [updateEpisodeImportProgress, h]

/-- C9 (witness): the no-op theorem applied to a store holding only an
unrelated Import Record. -/
theorem c9_progress_absent_record_noop_witness :
    storeGet storeOther "missing_import" = none
    ∧ updateEpisodeImportProgress storeOther "missing_import" 7 true =
        storeOther :=
  ⟨by decide,
    c9_progress_absent_record_noop storeOther "missing_import" 7 true
      (by decide)⟩

/-- C10 (confirmed): `upsert_episode` returns normally on every input — a
record without a truthy id logs an error and writes nothing, and a raised
`SQLAlchemyError` or any other exception from execute/flush is caught and
logged with the sink left as it was, so a persistence failure is
indistinguishable from success at the call site. -/
theorem c10_upsert_never_raises :
    (∀ (ep : EpisodeRec) (sid : Int) (db : Db) (f : Option DbErr),
      upsert_episode ep sid db f = Except.ok (upsertEpisodeRun ep sid db f))
    ∧ (∀ (ep : EpisodeRec) (sid : Int) (db : Db) (f : Option DbErr),
      upsert_episode { ep with id := none } sid db f = Except.ok db)
    ∧ (∀ (ep : EpisodeRec) (sid : Int) (db : Db) (f : Option DbErr),
      upsert_episode { ep with id := some 0 } sid db f = Except.ok db)
    ∧ (∀ (ep : EpisodeRec) (sid : Int) (db : Db) (e : DbErr),
      upsert_episode ep sid db (some e) = Except.ok db) := by
  refine ⟨upsert_episode_ok, ?_, ?_, ?_⟩
  · intro ep sid db f
    simp [upsert_episode]
  · intro ep sid db f
    simp [upsert_episode]
  · intro ep sid db e
    rw [upsert_episode_ok, upsertEpisodeRun_fail]

end EpisodeSvc
